import Mathlib

/-!
Verification of the Legato Data Hub dataflow engine against its specification.

The definitions below are a shallow embedding of the C sources in
`components/dataHub/` (ioPoint.c, ioService.c, resTree.c) together with the
interface contracts in `resTree.h`.  C doubles are modelled as either NaN or a
rational; C strings are modelled as the list of bytes before the terminating
NUL; reference-counted samples are modelled as values; allocation failure is
modelled by an `allocOk` flag threaded through the sample constructors.
External collaborators (the JSON utility, `%lf` formatting) are modelled as an
explicit `Ext` record of functions.  Functions of this repository that are not
part of the sources at hand (resource.c, handler.c, snapshot.c) are modelled
from the specification; each such definition carries a doc comment starting
with "Modelled from the spec:".
-/

namespace DataHub

/-- Subset of the `le_result_t` error codes used by the Data Hub. -/
inductive LeResult where
  | ok
  | notFound
  | unavailable
  | duplicate
  | badParameter
  | noMemory
  | overflow
  | inProgress
  | notPermitted
  | formatError
  | fault
deriving DecidableEq, Repr

/-- The five sample data types (`io_DataType_t`). -/
inductive IoDataType where
  | trigger
  | boolean
  | numeric
  | str
  | json
deriving DecidableEq, Repr

/-- Model of a C `double`: NaN or a finite rational.  Only equality, the
comparison with zero, and propagation through the code matter for the claims
at hand, so infinities are folded into the finite case. -/
inductive CDouble where
  | nan
  | fin (q : ℚ)
deriving DecidableEq, Repr

/-- The C comparison `value != 0` on a double; NaN compares unequal to zero. -/
def CDouble.isNonzero : CDouble → Bool
  | .nan => true
  | .fin q => decide (q ≠ 0)

/-- The tagged value carried by a data sample. -/
inductive SampleValue where
  | trigger
  | boolean (b : Bool)
  | numeric (v : CDouble)
  | str (s : List Char)
  | json (s : List Char)
deriving DecidableEq, Repr

/-- A data sample: a timestamp plus a tagged value (`dataSample.h`). -/
structure DataSample where
  timestamp : CDouble
  value : SampleValue
deriving DecidableEq, Repr

/-- `dataSample_GetTimestamp`. -/
def dataSample_GetTimestamp (s : DataSample) : CDouble := s.timestamp

/-- `dataSample_GetBoolean`; the C getter assumes the variant, so a junk value
is produced on a variant mismatch. -/
def dataSample_GetBoolean (s : DataSample) : Bool :=
  match s.value with
  | .boolean b => b
  | _ => false

/-- `dataSample_GetNumeric`; junk value on a variant mismatch. -/
def dataSample_GetNumeric (s : DataSample) : CDouble :=
  match s.value with
  | .numeric v => v
  | _ => .fin 0

/-- `dataSample_GetString`; junk value on a variant mismatch. -/
def dataSample_GetString (s : DataSample) : List Char :=
  match s.value with
  | .str l => l
  | _ => []

/-- `dataSample_GetJson`; junk value on a variant mismatch. -/
def dataSample_GetJson (s : DataSample) : List Char :=
  match s.value with
  | .json l => l
  | _ => []

/-- `dataSample_CreateTrigger`; returns `none` when allocation fails. -/
def dataSample_CreateTrigger (allocOk : Bool) (timestamp : CDouble) :
    Option DataSample :=
  if allocOk then some ⟨timestamp, .trigger⟩ else none

/-- `dataSample_CreateBoolean`. -/
def dataSample_CreateBoolean (allocOk : Bool) (timestamp : CDouble) (value : Bool) :
    Option DataSample :=
  if allocOk then some ⟨timestamp, .boolean value⟩ else none

/-- `dataSample_CreateNumeric`. -/
def dataSample_CreateNumeric (allocOk : Bool) (timestamp : CDouble) (value : CDouble) :
    Option DataSample :=
  if allocOk then some ⟨timestamp, .numeric value⟩ else none

/-- `dataSample_CreateString`. -/
def dataSample_CreateString (allocOk : Bool) (timestamp : CDouble) (value : List Char) :
    Option DataSample :=
  if allocOk then some ⟨timestamp, .str value⟩ else none

/-- `dataSample_CreateJson`. -/
def dataSample_CreateJson (allocOk : Bool) (timestamp : CDouble) (value : List Char) :
    Option DataSample :=
  if allocOk then some ⟨timestamp, .json value⟩ else none

/-- Does a sample's value variant agree with a given data type tag? -/
def wellTyped (t : IoDataType) (s : DataSample) : Bool :=
  match t, s.value with
  | .trigger, .trigger => true
  | .boolean, .boolean _ => true
  | .numeric, .numeric _ => true
  | .str, .str _ => true
  | .json, .json _ => true
  | _, _ => false

/-- External collaborators of the core: the JSON utility (`json.c`) and the
libc `%lf` formatting used by the coercions.  These are out of scope for the
specification, so they are kept abstract as a record of functions. -/
structure Ext where
  jsonToBool : List Char → Bool
  jsonToNum : List Char → CDouble
  jsonValid : List Char → Bool
  formatDbl : CDouble → List Char

/-- Size of the conversion buffers in `ioPoint_DoTypeCoercion`
(`char newValue[HUB_MAX_STRING_BYTES]`); string samples are at most 1023 bytes
plus the NUL terminator. -/
def HUB_MAX_STRING_BYTES : Nat := 1024

/-- Value of `sizeof(char*)` on the 64-bit build.  The overflow handler of the
string-to-JSON coercion indexes the buffer with `sizeof(newValue - 2)` and
`sizeof(newValue - 1)`; both expressions measure a pointer, not the array, so
both evaluate to this constant. -/
def sizeofCharPtr : Nat := 8

/-- The NaN produced by `trigger → numeric` coercion. -/
def NAN : CDouble := .nan

/-- `ioPoint_DoTypeCoercion` (ioPoint.c): replace a data sample with another of
a different type, if necessary, to make the data compatible with the data type
of a given Input or Output resource.  `ioDataType` is the declared data type of
the resource (`ioPtr->dataType`); the result carries the `le_result_t` plus the
INOUT `(dataType, sample)` pair.  The pair `(toSample?, needsTypeConversion)`
mirrors the local variables of the C function. -/
def ioPoint_DoTypeCoercion (ext : Ext) (allocOk : Bool) (ioDataType : IoDataType)
    (dataType : IoDataType) (valueRef : DataSample) :
    LeResult × IoDataType × DataSample :=
  let fromType := dataType
  let fromSample := valueRef
  let toType := ioDataType
  let timestamp := dataSample_GetTimestamp fromSample
  let conv : Option DataSample × Bool :=
    match toType, fromType with
    | .trigger, .trigger => (none, false)
    | .trigger, _ => (dataSample_CreateTrigger allocOk timestamp, true)
    | .boolean, .trigger => (dataSample_CreateBoolean allocOk timestamp false, true)
    | .boolean, .boolean => (none, false)
    | .boolean, .numeric =>
        (dataSample_CreateBoolean allocOk timestamp
          (dataSample_GetNumeric fromSample).isNonzero, true)
    | .boolean, .str =>
        -- bool boolValue = (value[0] != '\0');
        (dataSample_CreateBoolean allocOk timestamp
          (!(dataSample_GetString fromSample).isEmpty), true)
    | .boolean, .json =>
        (dataSample_CreateBoolean allocOk timestamp
          (ext.jsonToBool (dataSample_GetJson fromSample)), true)
    | .numeric, .trigger => (dataSample_CreateNumeric allocOk timestamp NAN, true)
    | .numeric, .boolean =>
        (dataSample_CreateNumeric allocOk timestamp
          (.fin (if dataSample_GetBoolean fromSample then 1 else 0)), true)
    | .numeric, .numeric => (none, false)
    | .numeric, .str =>
        -- double newValue = (dataSample_GetString(fromSample)[0] == '\0' ? 0 : 1);
        (dataSample_CreateNumeric allocOk timestamp
          (.fin (if (dataSample_GetString fromSample).isEmpty then 0 else 1)), true)
    | .numeric, .json =>
        (dataSample_CreateNumeric allocOk timestamp
          (ext.jsonToNum (dataSample_GetJson fromSample)), true)
    | .str, .trigger => (dataSample_CreateString allocOk timestamp [], true)
    | .str, .boolean =>
        (dataSample_CreateString allocOk timestamp
          (if dataSample_GetBoolean fromSample then "true".toList else "false".toList),
         true)
    | .str, .numeric =>
        -- snprintf(newValue, sizeof(newValue), "%lf", oldValue); on overflow the
        -- code logs LE_CRIT and stores the empty string.
        let newValue := ext.formatDbl (dataSample_GetNumeric fromSample)
        let newValue := if HUB_MAX_STRING_BYTES ≤ newValue.length then [] else newValue
        (dataSample_CreateString allocOk timestamp newValue, true)
    | .str, .str => (none, false)
    | .str, .json =>
        (dataSample_CreateString allocOk timestamp (dataSample_GetJson fromSample), true)
    | .json, .trigger => (dataSample_CreateJson allocOk timestamp "null".toList, true)
    | .json, .boolean =>
        (dataSample_CreateJson allocOk timestamp
          (if dataSample_GetBoolean fromSample then "true".toList else "false".toList),
         true)
    | .json, .numeric =>
        let newValue := ext.formatDbl (dataSample_GetNumeric fromSample)
        let newValue := if HUB_MAX_STRING_BYTES ≤ newValue.length then [] else newValue
        (dataSample_CreateJson allocOk timestamp newValue, true)
    | .json, .str =>
        -- snprintf(newValue, sizeof(newValue), "\"%s\"", oldValue); the formatted
        -- output is the quoted string, truncated to the buffer.  On overflow the
        -- code executes newValue[sizeof(newValue - 2)] = '"' and then
        -- newValue[sizeof(newValue - 1)] = '\0'; both indices are sizeof(char*),
        -- so the second write terminates the stored string at that index.
        let oldValue := dataSample_GetString fromSample
        let out := '"' :: (oldValue ++ ['"'])
        let newValue :=
          if HUB_MAX_STRING_BYTES ≤ out.length then
            (((out.take (HUB_MAX_STRING_BYTES - 1)).set sizeofCharPtr '"').take
              sizeofCharPtr)
          else out
        (dataSample_CreateJson allocOk timestamp newValue, true)
    | .json, .json => (none, false)
  match conv with
  | (some toSample, _) => (.ok, toType, toSample)
  | (none, true) => (.noMemory, fromType, fromSample)
  | (none, false) => (.ok, fromType, fromSample)

/-- State of an Input or Output resource as far as the push pipeline is
concerned: the declared data type fixed at creation, and the current value. -/
structure IoRes where
  dataType : IoDataType
  currentValue : Option DataSample
deriving DecidableEq, Repr

/-- Modelled from the spec: the Input/Output case of `res_Push` (resource.c is
not among the sources at hand).  Per the push pipeline of the spec, a push to
an Input/Output with no update barrier in effect performs type coercion
against the declared type; on coercion failure the push fails with no-memory
and the previously held current value is retained untouched; if accepted, the
previous current value is released and the coerced sample becomes the current
value. -/
def res_PushIo (ext : Ext) (allocOk : Bool) (r : IoRes) (dataType : IoDataType)
    (sample : DataSample) : LeResult × IoRes :=
  match ioPoint_DoTypeCoercion ext allocOk r.dataType dataType sample with
  | (.ok, _, coerced) => (.ok, { r with currentValue := some coerced })
  | (res, _, _) => (res, r)

/-- A concrete instantiation of the external collaborators, used only by the
witness theorems. -/
def extProbe : Ext where
  jsonToBool := fun _ => false
  jsonToNum := fun _ => .fin 0
  jsonValid := fun _ => true
  formatDbl := fun _ => ['0']

/-! ### Routing: source links and cycle prevention

Resources are identified by natural numbers; the routing state is the list of
source links (`m.getD i none` is the source of resource `i`, `none` if no
source is configured).  `res_SetSource` itself lives in resource.c, which is
not among the sources at hand, so it is modelled from the spec below. -/

/-- The source link of resource `a` in routing state `m`. -/
def getSrc (m : List (Option Nat)) (a : Nat) : Option Nat := m.getD a none

/-- The bounded graph walk along source links performed when a source is set:
starting from `a`, does the walk reach `b` within `fuel` steps? -/
def reachesFuel (m : List (Option Nat)) : Nat → Nat → Nat → Bool
  | 0, _, _ => false
  | fuel + 1, a, b =>
    if a = b then true
    else
      match getSrc m a with
      | none => false
      | some p => reachesFuel m fuel p b

/-- `b` is reachable from `a` by following source links (zero or more steps). -/
inductive Reaches (m : List (Option Nat)) : Nat → Nat → Prop
  | refl (a : Nat) : Reaches m a a
  | step (a p b : Nat) : getSrc m a = some p → Reaches m p b → Reaches m a b

/-- Following source links exactly `k` times from `a` (`none` if a link is
missing along the way). -/
def iterSrc (m : List (Option Nat)) : Nat → Nat → Option Nat
  | 0, a => some a
  | k + 1, a =>
    match getSrc m a with
    | none => none
    | some p => iterSrc m k p

/-- Modelled from the spec: `res_SetSource` (resource.c is not among the
sources at hand).  Per §4.5 of the spec and the `resTree.h` contract: if the
graph walk from the proposed source back through source links ever reaches the
destination, reject with duplicate ("would create a loop"); otherwise install
the link, replacing any existing one; LE_OK if the route already existed or
the new route was successfully created; a `none` source clears the link.  The
walk is bounded by the number of resources plus one, which suffices to explore
every chain of distinct resources. -/
def res_SetSource (m : List (Option Nat)) (dest : Nat) (srcRef : Option Nat) :
    LeResult × List (Option Nat) :=
  match srcRef with
  | none => (.ok, m.set dest none)
  | some a =>
    if reachesFuel m (m.length + 1) a dest then (.duplicate, m)
    else (.ok, m.set dest (some a))

/-! ### Resource tree entries and the I/O service facade -/

/-- `admin_EntryType_t`; `nspace` stands for `ADMIN_ENTRY_TYPE_NAMESPACE`. -/
inductive EntryType where
  | nspace
  | input
  | output
  | observation
  | placeholder
deriving DecidableEq, Repr

/-- The snapshot flags carried by a namespace entry (`u.flags`):
`RES_FLAG_NEW`, `RES_FLAG_RELEVANT`, `RES_FLAG_DELETED`. -/
structure Flags where
  isNew : Bool
  relevant : Bool
  deleted : Bool
deriving DecidableEq, Repr

/-- The all-clear flag word (`u.flags = 0`). -/
def Flags.clear : Flags := ⟨false, false, false⟩

/-- The resource body attached to a non-namespace entry (`res_Resource_t` plus
the Input/Output tail): declared data type and units, current value, default
and override samples, the source link (by resource id), and the Output
`isMandatory` flag. -/
structure ResBody where
  dataType : IoDataType
  units : List Char
  currentValue : Option DataSample
  defaultValue : Option DataSample
  overrideValue : Option DataSample
  source : Option Nat
  isMandatory : Bool
deriving DecidableEq, Repr

/-- The union member of a tree entry (`Entry_t.u`): a flag word for a
Namespace entry, an owned resource body for every other entry kind. -/
inductive EntryBody where
  | nsFlags (f : Flags)
  | resource (r : ResBody)
deriving DecidableEq, Repr

/-- A resource tree entry (`resTree_Entry_t`); parent and child links are kept
outside this structure, where the lookup operations need them. -/
structure TreeEntry where
  name : List Char
  entryType : EntryType
  body : EntryBody
deriving DecidableEq, Repr

/-- The resource body of an entry (`u.resourcePtr`), when it has one. -/
def entryRes (e : TreeEntry) : Option ResBody :=
  match e.body with
  | .resource r => some r
  | .nsFlags _ => none

/-- `resTree_IsResource` (resTree.c). -/
def resTree_IsResource (e : TreeEntry) : Bool :=
  if e.entryType = .nspace then false else (entryRes e).isSome

/-- `resTree_IsDeleted` (resTree.c): all deleted nodes are converted to
namespaces during the deletion process, so a non-namespace entry is never
considered deleted.  (A namespace entry whose union member holds a resource is
unrepresentable in the C union; it reads as not deleted here.) -/
def resTree_IsDeleted (e : TreeEntry) : Bool :=
  match e.entryType with
  | .nspace =>
    match e.body with
    | .nsFlags f => f.deleted
    | .resource _ => false
  | _ => false

/-- `resTree_FindChildEx` (resTree.c) over the ordered child list. -/
def resTree_FindChildEx (children : List TreeEntry) (name : List Char)
    (withZombies : Bool) : Option TreeEntry :=
  match children with
  | [] => none
  | c :: rest =>
    if (withZombies || !resTree_IsDeleted c) && c.name == name then some c
    else resTree_FindChildEx rest name withZombies

/-- `resTree_FindChild`. -/
def resTree_FindChild (children : List TreeEntry) (name : List Char) :
    Option TreeEntry :=
  resTree_FindChildEx children name false

/-- `resTree_GetFirstChildEx` (resTree.c): peeks only at the first child; a
deleted first child hides the remaining children rather than being skipped. -/
def resTree_GetFirstChildEx (children : List TreeEntry) (withZombies : Bool) :
    Option TreeEntry :=
  match children with
  | [] => none
  | c :: _ => if withZombies || !resTree_IsDeleted c then some c else none

/-- `resTree_GetFirstChild`. -/
def resTree_GetFirstChild (children : List TreeEntry) : Option TreeEntry :=
  resTree_GetFirstChildEx children false

/-- `resTree_GetNextSiblingEx` (resTree.c), given the list of siblings that
follow the entry in its parent's child list. -/
def resTree_GetNextSiblingEx (followingSiblings : List TreeEntry)
    (withZombies : Bool) : Option TreeEntry :=
  match followingSiblings with
  | [] => none
  | c :: _ => if withZombies || !resTree_IsDeleted c then some c else none

/-- `resTree_GetNextSibling`. -/
def resTree_GetNextSibling (followingSiblings : List TreeEntry) : Option TreeEntry :=
  resTree_GetNextSiblingEx followingSiblings false

/-- `resTree_GetDataType`; the C function asserts the entry is a resource, so
a junk value is produced otherwise. -/
def resTree_GetDataType (e : TreeEntry) : IoDataType :=
  match entryRes e with
  | some r => r.dataType
  | none => .trigger

/-- `resTree_GetUnits`; junk value for a non-resource entry. -/
def resTree_GetUnits (e : TreeEntry) : List Char :=
  match entryRes e with
  | some r => r.units
  | none => []

/-- `resTree_GetCurrentValue` (resTree.c). -/
def resTree_GetCurrentValue (e : TreeEntry) : Option DataSample :=
  if !resTree_IsResource e then none
  else
    match entryRes e with
    | some r => r.currentValue
    | none => none

/-- `resTree_HasDefault`. -/
def resTree_HasDefault (e : TreeEntry) : Bool :=
  match entryRes e with
  | some r => r.defaultValue.isSome
  | none => false

/-- Modelled from the spec: `resTree_SetDefault` per its resTree.h contract
(the underlying `res_SetDefault` lives in resource.c, which is not among the
sources at hand): installs the default value; LE_BAD_PARAMETER when the
default's data type does not match the data type of the Input or Output. -/
def resTree_SetDefault (e : TreeEntry) (dataType : IoDataType) (v : DataSample) :
    LeResult × TreeEntry :=
  match e.body with
  | .resource r =>
    if r.dataType = dataType then
      (.ok, { e with body := .resource { r with defaultValue := some v } })
    else (.badParameter, e)
  | .nsFlags _ => (.fault, e)

/-- Modelled from the spec: `res_HasAdminSettings` (resource.c is not among
the sources at hand).  A resource still carries administrative settings when a
default value, an override, or a source link is configured on it. -/
def res_HasAdminSettings (r : ResBody) : Bool :=
  r.defaultValue.isSome || r.overrideValue.isSome || r.source.isSome

/-- Modelled from the spec: `res_CreatePlaceholder` combined with the
`res_MoveAdminSettings` call performed by `ReplaceResource`: the placeholder
body retains the administrative settings (default, override, source) of the
replaced resource and holds no current value. -/
def res_CreatePlaceholder (r : ResBody) : ResBody :=
  { dataType := r.dataType
    units := r.units
    currentValue := none
    defaultValue := r.defaultValue
    overrideValue := r.overrideValue
    source := r.source
    isMandatory := false }

/-- Observable side effects of the tree operations: resource-tree change
handler notifications (`admin_CallResourceTreeChangeHandlers`), the snapshot
deletion record (`snapshot_RecordNodeDeletion`), the release of the tree
entry, and push-handler invocations (`handler_Call`). -/
inductive TreeEvent where
  | removalHandlers (t : EntryType)
  | additionHandlers (t : EntryType)
  | recordDeletion
  | releaseEntry
  | handlerCall (t : IoDataType) (s : DataSample)
deriving DecidableEq, Repr

/-- `resTree_DeleteIO` (resTree.c): notify the change handlers of the removal;
then either convert the entry into a Placeholder (when administrative settings
survive on the resource) or strip the resource body, convert the entry into a
Namespace with cleared flags, record the deletion for the snapshot mechanism
and release the entry. -/
def resTree_DeleteIo (e : TreeEntry) : TreeEntry × List TreeEvent :=
  match e.body with
  | .resource io =>
    if res_HasAdminSettings io then
      ({ e with entryType := .placeholder, body := .resource (res_CreatePlaceholder io) },
       [.removalHandlers e.entryType])
    else
      ({ e with entryType := .nspace, body := .nsFlags Flags.clear },
       [.removalHandlers e.entryType, .recordDeletion, .releaseEntry])
  | .nsFlags _ => (e, [.removalHandlers e.entryType])

/-- `FindResource` (ioService.c): the path lookup inside the client's
namespace is abstracted to the entry it finds (`entry`); the function then
filters out every entry that is not an Input or an Output. -/
def FindResource (entry : Option TreeEntry) : Option TreeEntry :=
  match entry with
  | none => none
  | some e =>
    if e.entryType = .input || e.entryType = .output then some e else none

/-- `GetCurrentValue` (ioService.c, static): fetch the current value of a
resource with a data type check; `none` when the type does not match or no
current value exists. -/
def GetCurrentValue (e : TreeEntry) (dataType : IoDataType) : Option DataSample :=
  if resTree_GetDataType e ≠ dataType then none
  else resTree_GetCurrentValue e

/-- `io_GetTimestamp` (ioService.c): the result code and the timestamp
out-parameter (`none` when it is not written). -/
def io_GetTimestamp (entry : Option TreeEntry) : LeResult × Option CDouble :=
  match FindResource entry with
  | none => (.notFound, none)
  | some e =>
    match resTree_GetCurrentValue e with
    | none => (.unavailable, none)
    | some v => (.ok, some (dataSample_GetTimestamp v))

/-- `io_GetBoolean` (ioService.c): the result code plus the timestamp and
value out-parameters (`none` when they are not written). -/
def io_GetBoolean (entry : Option TreeEntry) :
    LeResult × Option CDouble × Option Bool :=
  match FindResource entry with
  | none => (.notFound, none, none)
  | some e =>
    match GetCurrentValue e .boolean with
    | none => (.unavailable, none, none)
    | some v => (.ok, some (dataSample_GetTimestamp v), some (dataSample_GetBoolean v))

/-- `io_GetNumeric` (ioService.c). -/
def io_GetNumeric (entry : Option TreeEntry) :
    LeResult × Option CDouble × Option CDouble :=
  match FindResource entry with
  | none => (.notFound, none, none)
  | some e =>
    match GetCurrentValue e .numeric with
    | none => (.unavailable, none, none)
    | some v => (.ok, some (dataSample_GetTimestamp v), some (dataSample_GetNumeric v))

/-- `le_utf8_Copy`: bytes are modelled as chars; LE_OVERFLOW when the value
does not fit a buffer holding `size - 1` content bytes plus the terminator. -/
def le_utf8_Copy (size : Nat) (s : List Char) : LeResult × List Char :=
  if s.length < size then (.ok, s) else (.overflow, s.take (size - 1))

/-- `io_GetString` (ioService.c). -/
def io_GetString (entry : Option TreeEntry) (valueSize : Nat) :
    LeResult × Option CDouble × Option (List Char) :=
  match FindResource entry with
  | none => (.notFound, none, none)
  | some e =>
    match GetCurrentValue e .str with
    | none => (.unavailable, none, none)
    | some v =>
      let copy := le_utf8_Copy valueSize (dataSample_GetString v)
      (copy.1, some (dataSample_GetTimestamp v), some copy.2)

/-- `resTree_Push` (resTree.c) with the result contract of resTree.h,
restricted to the entry kinds reachable from the I/O service facade: an Input
or Output goes through the resource push pipeline; a Namespace entry throws
the sample away.  Observations and Placeholders are not reachable through
`FindResource` and are not modelled here. -/
def resTree_Push (ext : Ext) (allocOk : Bool) (e : TreeEntry) (dataType : IoDataType)
    (sample : DataSample) : LeResult × TreeEntry :=
  match e.entryType with
  | .nspace => (.ok, e)
  | .input | .output =>
    match e.body with
    | .resource r =>
      let push := res_PushIo ext allocOk ⟨r.dataType, r.currentValue⟩ dataType sample
      (push.1, { e with body := .resource { r with currentValue := push.2.currentValue } })
    | .nsFlags _ => (.fault, e)
  | .observation | .placeholder => (.fault, e)

/-- `io_PushTrigger` (ioService.c). -/
def io_PushTrigger (ext : Ext) (allocOk : Bool) (entry : Option TreeEntry)
    (timestamp : CDouble) : LeResult × Option TreeEntry :=
  match FindResource entry with
  | none => (.notFound, entry)
  | some e =>
    match dataSample_CreateTrigger allocOk timestamp with
    | some sample =>
      let push := resTree_Push ext allocOk e .trigger sample
      (push.1, some push.2)
    | none => (.noMemory, entry)

/-- `io_PushBoolean` (ioService.c). -/
def io_PushBoolean (ext : Ext) (allocOk : Bool) (entry : Option TreeEntry)
    (timestamp : CDouble) (value : Bool) : LeResult × Option TreeEntry :=
  match FindResource entry with
  | none => (.notFound, entry)
  | some e =>
    match dataSample_CreateBoolean allocOk timestamp value with
    | some sample =>
      let push := resTree_Push ext allocOk e .boolean sample
      (push.1, some push.2)
    | none => (.noMemory, entry)

/-- `io_PushNumeric` (ioService.c). -/
def io_PushNumeric (ext : Ext) (allocOk : Bool) (entry : Option TreeEntry)
    (timestamp : CDouble) (value : CDouble) : LeResult × Option TreeEntry :=
  match FindResource entry with
  | none => (.notFound, entry)
  | some e =>
    match dataSample_CreateNumeric allocOk timestamp value with
    | some sample =>
      let push := resTree_Push ext allocOk e .numeric sample
      (push.1, some push.2)
    | none => (.noMemory, entry)

/-- `io_PushString` (ioService.c). -/
def io_PushString (ext : Ext) (allocOk : Bool) (entry : Option TreeEntry)
    (timestamp : CDouble) (value : List Char) : LeResult × Option TreeEntry :=
  match FindResource entry with
  | none => (.notFound, entry)
  | some e =>
    match dataSample_CreateString allocOk timestamp value with
    | some sample =>
      let push := resTree_Push ext allocOk e .str sample
      (push.1, some push.2)
    | none => (.noMemory, entry)

/-- `io_PushJson` (ioService.c): a JSON push additionally validates the JSON
text before creating the sample. -/
def io_PushJson (ext : Ext) (allocOk : Bool) (entry : Option TreeEntry)
    (timestamp : CDouble) (value : List Char) : LeResult × Option TreeEntry :=
  match FindResource entry with
  | none => (.notFound, entry)
  | some e =>
    if ext.jsonValid value then
      match dataSample_CreateJson allocOk timestamp value with
      | some sample =>
        let push := resTree_Push ext allocOk e .json sample
        (push.1, some push.2)
      | none => (.noMemory, entry)
    else (.badParameter, entry)

/-- `io_DeleteResource` (ioService.c). -/
def io_DeleteResource (entry : Option TreeEntry) :
    LeResult × Option TreeEntry × List TreeEvent :=
  match FindResource entry with
  | none => (.notFound, entry, [])
  | some e =>
    let del := resTree_DeleteIo e
    (.ok, some del.1, del.2)

/-- `resTree_MarkOptional` / `ioPoint_MarkOptional`. -/
def resTree_MarkOptional (e : TreeEntry) : TreeEntry :=
  match e.body with
  | .resource r => { e with body := .resource { r with isMandatory := false } }
  | .nsFlags _ => e

/-- `io_MarkOptional` (ioService.c): a void operation; only an existing Output
resource is modified. -/
def io_MarkOptional (entry : Option TreeEntry) : Option TreeEntry :=
  match FindResource entry with
  | none => entry
  | some e =>
    if e.entryType ≠ .output then entry
    else some (resTree_MarkOptional e)

/-- `io_SetBooleanDefault` (ioService.c). -/
def io_SetBooleanDefault (allocOk : Bool) (entry : Option TreeEntry) (value : Bool) :
    LeResult × Option TreeEntry :=
  match FindResource entry with
  | none => (.notFound, entry)
  | some e =>
    if resTree_GetDataType e ≠ .boolean then (.badParameter, entry)
    else if !resTree_HasDefault e then
      match dataSample_CreateBoolean allocOk (.fin 0) value with
      | some sample =>
        let set := resTree_SetDefault e .boolean sample
        (set.1, some set.2)
      | none => (.noMemory, entry)
    else (.duplicate, entry)

/-- `io_SetNumericDefault` (ioService.c). -/
def io_SetNumericDefault (allocOk : Bool) (entry : Option TreeEntry) (value : CDouble) :
    LeResult × Option TreeEntry :=
  match FindResource entry with
  | none => (.notFound, entry)
  | some e =>
    if resTree_GetDataType e ≠ .numeric then (.badParameter, entry)
    else if !resTree_HasDefault e then
      match dataSample_CreateNumeric allocOk (.fin 0) value with
      | some sample =>
        let set := resTree_SetDefault e .numeric sample
        (set.1, some set.2)
      | none => (.noMemory, entry)
    else (.duplicate, entry)

/-- `io_SetStringDefault` (ioService.c). -/
def io_SetStringDefault (allocOk : Bool) (entry : Option TreeEntry) (value : List Char) :
    LeResult × Option TreeEntry :=
  match FindResource entry with
  | none => (.notFound, entry)
  | some e =>
    if resTree_GetDataType e ≠ .str then (.badParameter, entry)
    else if !resTree_HasDefault e then
      match dataSample_CreateString allocOk (.fin 0) value with
      | some sample =>
        let set := resTree_SetDefault e .str sample
        (set.1, some set.2)
      | none => (.noMemory, entry)
    else (.duplicate, entry)

/-- `io_SetJsonDefault` (ioService.c): additionally validates the JSON text
before creating the sample. -/
def io_SetJsonDefault (ext : Ext) (allocOk : Bool) (entry : Option TreeEntry)
    (value : List Char) : LeResult × Option TreeEntry :=
  match FindResource entry with
  | none => (.notFound, entry)
  | some e =>
    if resTree_GetDataType e ≠ .json then (.badParameter, entry)
    else if !resTree_HasDefault e then
      if ext.jsonValid value then
        match dataSample_CreateJson allocOk (.fin 0) value with
        | some sample =>
          let set := resTree_SetDefault e .json sample
          (set.1, some set.2)
        | none => (.noMemory, entry)
      else (.badParameter, entry)
    else (.duplicate, entry)

/-- `AddPushHandler` (ioService.c): the shared implementation of the
`io_Add*PushHandler` functions.  `pushLimit` and `pushCount` model the
optional compile-time handler budget (`DHUB_IO_PUSH_HANDLER_COUNT`);
`nsExists` models `hub_GetClientNamespace`; `entry` models the
`resTree_FindEntry` result; `addOk` models allocation success inside
`resTree_AddPushHandler`.  The returned flag says whether a handler reference
was produced; the second component is the updated `PushHandlerCount`; the
event list records the `handler_Call` invocations performed before the
registration call returns.  handler.c is not among the sources at hand, so per
the spec the `handler_Call` made here is recorded as an invocation of the new
handler with the sample passed to it. -/
def AddPushHandler (pushLimit : Option Nat) (pushCount : Nat) (nsExists : Bool)
    (entry : Option TreeEntry) (addOk : Bool) (dataType : IoDataType) :
    Option IoDataType × Nat × List TreeEvent :=
  let limited :=
    match pushLimit with
    | some l => decide (l ≤ pushCount)
    | none => false
  if limited then (none, pushCount, [])
  else if !nsExists then (none, pushCount, [])
  else
    match entry with
    | none => (none, pushCount, [])
    | some e =>
      if e.entryType ≠ .input ∧ e.entryType ≠ .output then (none, pushCount, [])
      else if !addOk then (none, pushCount, [])
      else
        match resTree_GetCurrentValue e with
        | some v =>
          (some dataType, pushCount + 1, [TreeEvent.handlerCall (resTree_GetDataType e) v])
        | none => (some dataType, pushCount + 1, [])

/-- Modelled from the spec: `resTree_CreateInput` per its resTree.h contract
(the function body is not among the sources at hand): creates an Input at the
path, converting an existing Namespace or Placeholder entry (administrative
settings migrate with the resource body); LE_OK on success, LE_NO_MEMORY when
allocation fails. -/
def resTree_CreateInput (createOk : Bool) (existing : Option TreeEntry)
    (name : List Char) (dataType : IoDataType) (units : List Char) :
    LeResult × Option TreeEntry :=
  let fresh : ResBody :=
    { dataType := dataType
      units := units
      currentValue := none
      defaultValue := none
      overrideValue := none
      source := none
      isMandatory := false }
  if !createOk then (.noMemory, existing)
  else
    match existing with
    | some e =>
      match e.body with
      | .resource r =>
        let moved : ResBody :=
          { r with
            dataType := dataType
            units := units
            currentValue := none
            isMandatory := false }
        (.ok, some { e with entryType := .input, body := .resource moved })
      | .nsFlags _ =>
        (.ok, some { e with entryType := .input, body := .resource fresh })
    | none =>
      (.ok, some { name := name, entryType := .input, body := .resource fresh })

/-- Modelled from the spec: `resTree_CreateOutput`, like `resTree_CreateInput`
but producing an Output, which is mandatory by default (`ioPoint_CreateOutput`). -/
def resTree_CreateOutput (createOk : Bool) (existing : Option TreeEntry)
    (name : List Char) (dataType : IoDataType) (units : List Char) :
    LeResult × Option TreeEntry :=
  let fresh : ResBody :=
    { dataType := dataType
      units := units
      currentValue := none
      defaultValue := none
      overrideValue := none
      source := none
      isMandatory := true }
  if !createOk then (.noMemory, existing)
  else
    match existing with
    | some e =>
      match e.body with
      | .resource r =>
        let moved : ResBody :=
          { r with
            dataType := dataType
            units := units
            currentValue := none
            isMandatory := true }
        (.ok, some { e with entryType := .output, body := .resource moved })
      | .nsFlags _ =>
        (.ok, some { e with entryType := .output, body := .resource fresh })
    | none =>
      (.ok, some { name := name, entryType := .output, body := .resource fresh })

/-- `io_CreateInput` (ioService.c); the path lookup is abstracted to the entry
found at the path in the client's namespace. -/
def io_CreateInput (createOk : Bool) (existing : Option TreeEntry) (name : List Char)
    (dataType : IoDataType) (units : List Char) : LeResult × Option TreeEntry :=
  match existing with
  | some e =>
    match e.entryType with
    | .input =>
      if resTree_GetDataType e ≠ dataType ∨ units ≠ resTree_GetUnits e then
        (.duplicate, existing)
      else (.ok, existing)
    | .output => (.duplicate, existing)
    | .observation => (.duplicate, existing)
    | .nspace => resTree_CreateInput createOk existing name dataType units
    | .placeholder => resTree_CreateInput createOk existing name dataType units
  | none => resTree_CreateInput createOk existing name dataType units

/-- `io_CreateOutput` (ioService.c). -/
def io_CreateOutput (createOk : Bool) (existing : Option TreeEntry) (name : List Char)
    (dataType : IoDataType) (units : List Char) : LeResult × Option TreeEntry :=
  match existing with
  | some e =>
    match e.entryType with
    | .output =>
      if resTree_GetDataType e ≠ dataType ∨ units ≠ resTree_GetUnits e then
        (.duplicate, existing)
      else (.ok, existing)
    | .input => (.duplicate, existing)
    | .observation => (.duplicate, existing)
    | .nspace => resTree_CreateOutput createOk existing name dataType units
    | .placeholder => resTree_CreateOutput createOk existing name dataType units
  | none => resTree_CreateOutput createOk existing name dataType units

/-- A Boolean-typed Input with a current value, used by witness theorems. -/
def probeRes : ResBody :=
  { dataType := .boolean
    units := []
    currentValue := some ⟨.fin 2, .boolean true⟩
    defaultValue := none
    overrideValue := none
    source := none
    isMandatory := false }

/-- Tree entry carrying `probeRes`. -/
def probeEntry : TreeEntry :=
  { name := [], entryType := .input, body := .resource probeRes }

/-- A Numeric-typed Input with a current value, used by witness theorems. -/
def probeNumRes : ResBody :=
  { dataType := .numeric
    units := []
    currentValue := some ⟨.fin 1, .numeric (.fin 2)⟩
    defaultValue := none
    overrideValue := none
    source := none
    isMandatory := false }

/-- Tree entry carrying `probeNumRes`. -/
def probeNumEntry : TreeEntry :=
  { name := [], entryType := .input, body := .resource probeNumRes }

/-- `probeNumRes` with a default value installed. -/
def probeNumDefRes : ResBody :=
  { probeNumRes with defaultValue := some ⟨.fin 0, .numeric (.fin 7)⟩ }

/-- Tree entry carrying `probeNumDefRes`. -/
def probeNumDefEntry : TreeEntry :=
  { name := [], entryType := .input, body := .resource probeNumDefRes }

/-- An Observation entry, used by witness theorems. -/
def probeObsEntry : TreeEntry :=
  { name := [], entryType := .observation, body := .resource probeNumRes }

/-- A tombstone: a deleted namespace entry. -/
def probeDeadEntry : TreeEntry :=
  { name := [], entryType := .nspace, body := .nsFlags ⟨false, false, true⟩ }

theorem reachesFuel_sound (m : List (Option Nat)) :
    ∀ fuel a b, reachesFuel m fuel a b = true → Reaches m a b := by
  intro fuel
  induction fuel with
  | zero => intro a b h; simp [reachesFuel] at h
  | succ fuel ih =>
    intro a b h
    unfold reachesFuel at h
    split at h
    · rename_i heq; subst heq; exact .refl a
    · cases hs : getSrc m a with
      | none => rw [hs] at h; cases h
      | some p => rw [hs] at h; exact .step a p b hs (ih p b h)

theorem iterSrc_add (m : List (Option Nat)) (p q a : Nat) :
    iterSrc m (p + q) a = (iterSrc m p a).bind (iterSrc m q) := by
  induction p generalizing a with
  | zero => simp [iterSrc]
  | succ p ih =>
    have hpq : p + 1 + q = (p + q) + 1 := by omega
    rw [hpq]
    show (match getSrc m a with
          | none => none
          | some x => iterSrc m (p + q) x) = _
    cases hs : getSrc m a with
    | none => simp [iterSrc, hs]
    | some x => simp [iterSrc, hs, ih]

theorem reaches_to_iterSrc {m : List (Option Nat)} {a b : Nat} (h : Reaches m a b) :
    ∃ k, iterSrc m k a = some b := by
  induction h with
  | refl a => exact ⟨0, rfl⟩
  | step a p c hs _ ih =>
    obtain ⟨k, hk⟩ := ih
    exact ⟨k + 1, by simp [iterSrc, hs, hk]⟩

theorem iterSrc_to_reachesFuel (m : List (Option Nat)) :
    ∀ k a b fuel, iterSrc m k a = some b → k < fuel →
      reachesFuel m fuel a b = true := by
  intro k
  induction k with
  | zero =>
    intro a b fuel hk hfuel
    simp [iterSrc] at hk
    subst hk
    cases fuel with
    | zero => omega
    | succ f => simp [reachesFuel]
  | succ k ih =>
    intro a b fuel hk hfuel
    cases fuel with
    | zero => omega
    | succ f =>
      unfold iterSrc at hk
      cases hs : getSrc m a with
      | none => rw [hs] at hk; cases hk
      | some p =>
        rw [hs] at hk
        unfold reachesFuel
        split
        · rfl
        · rw [hs]; exact ih p b f hk (by omega)

theorem getSrc_lt {m : List (Option Nat)} {a p : Nat} (h : getSrc m a = some p) :
    a < m.length := by
  by_contra hge
  push_neg at hge
  have : m.getD a none = none := List.getD_eq_default m none hge
  rw [getSrc, this] at h
  cases h

theorem iterSrc_shrink (m : List (Option Nat)) :
    ∀ k a b, iterSrc m k a = some b → ∃ k', k' ≤ m.length ∧ iterSrc m k' a = some b := by
  intro k
  induction k using Nat.strong_induction_on with
  | _ k ih =>
    intro a b hk
    by_cases hle : k ≤ m.length
    · exact ⟨k, hle, hk⟩
    · push_neg at hle
      have hsome : ∀ i, i ≤ k → iterSrc m i a = some ((iterSrc m i a).getD 0) := by
        intro i hi
        have hdecomp : iterSrc m k a = (iterSrc m i a).bind (iterSrc m (k - i)) := by
          rw [← iterSrc_add]
          congr 1
          omega
        rw [hdecomp] at hk
        cases h : iterSrc m i a with
        | none => rw [h] at hk; cases hk
        | some v => simp [h]
      have hstep : ∀ i, i < k → ∃ p, getSrc m ((iterSrc m i a).getD 0) = some p := by
        intro i hi
        have hdecomp : iterSrc m k a = (iterSrc m i a).bind (iterSrc m (k - i)) := by
          rw [← iterSrc_add]
          congr 1
          omega
        rw [hdecomp, hsome i (by omega)] at hk
        simp only [Option.some_bind] at hk
        have hki : k - i = (k - i - 1) + 1 := by omega
        rw [hki] at hk
        unfold iterSrc at hk
        cases hs : getSrc m ((iterSrc m i a).getD 0) with
        | none => rw [hs] at hk; cases hk
        | some p => exact ⟨p, rfl⟩
      have hbound : ∀ i : Fin (m.length + 1), (iterSrc m i.val a).getD 0 < m.length := by
        intro i
        obtain ⟨p, hp⟩ := hstep i.val (by omega)
        exact getSrc_lt hp
      have hcard : Fintype.card (Fin m.length) < Fintype.card (Fin (m.length + 1)) := by
        simp
      obtain ⟨x, y, hxy, hfeq⟩ :=
        Fintype.exists_ne_map_eq_of_card_lt
          (fun i : Fin (m.length + 1) => (⟨(iterSrc m i.val a).getD 0, hbound i⟩ : Fin m.length))
          hcard
      have hveq : (iterSrc m x.val a).getD 0 = (iterSrc m y.val a).getD 0 := by
        simpa using congrArg Fin.val hfeq
      have hpair : ∃ i j, i < j ∧ j ≤ m.length ∧
          (iterSrc m i a).getD 0 = (iterSrc m j a).getD 0 := by
        rcases Nat.lt_or_ge x.val y.val with hlt | hge
        · exact ⟨x.val, y.val, hlt, by omega, hveq⟩
        · have hne : x.val ≠ y.val := fun hc => hxy (Fin.val_injective hc)
          have hlt : y.val < x.val := by omega
          exact ⟨y.val, x.val, hlt, by omega, hveq.symm⟩
      obtain ⟨i, j, hij, hjle, hveq2⟩ := hpair
      have hj : iterSrc m (k - j) ((iterSrc m j a).getD 0) = some b := by
        have hdecomp : iterSrc m k a = (iterSrc m j a).bind (iterSrc m (k - j)) := by
          rw [← iterSrc_add]
          congr 1
          omega
        rw [hdecomp, hsome j (by omega)] at hk
        simpa using hk
      have hki : iterSrc m (i + (k - j)) a = some b := by
        rw [iterSrc_add, hsome i (by omega)]
        simpa [hveq2] using hj
      exact ih (i + (k - j)) (by omega) a b hki

theorem reaches_complete {m : List (Option Nat)} {a b : Nat} (h : Reaches m a b) :
    reachesFuel m (m.length + 1) a b = true := by
  obtain ⟨k, hk⟩ := reaches_to_iterSrc h
  obtain ⟨k2, hk2le, hk2⟩ := iterSrc_shrink m k a b hk
  exact iterSrc_to_reachesFuel m k2 a b (m.length + 1) hk2 (by omega)

theorem list_set_same :
    ∀ (m : List (Option Nat)) (i : Nat) (v : Nat), m.getD i none = some v →
      m.set i (some v) = m := by
  intro m
  induction m with
  | nil => intro i v h; cases h
  | cons x xs ih =>
    intro i v h
    cases i with
    | zero =>
      simp only [List.getD, List.get?_cons_zero, Option.getD_some] at h
      simp [List.set, h]
    | succ i =>
      simp only [List.getD, List.get?_cons_succ] at h
      simp [List.set, ih i v h]

/-- Claim C2: for all resources A and B, calling `set_source(B, A)` when
following source links from A transitively reaches B returns the Duplicate
error and leaves B's source (indeed the whole routing state) unchanged;
otherwise the link is installed, replacing any existing source, and setting a
route that already exists succeeds and changes nothing. -/
theorem set_source_cycle_rejection (m : List (Option Nat)) (A B : Nat) :
    (Reaches m A B → res_SetSource m B (some A) = (.duplicate, m)) ∧
    (¬ Reaches m A B →
      res_SetSource m B (some A) = (.ok, m.set B (some A)) ∧
      (getSrc m B = some A → res_SetSource m B (some A) = (.ok, m))) := by
  constructor
  · intro h
    simp [res_SetSource, reaches_complete h]
  · intro h
    have hf : reachesFuel m (m.length + 1) A B = false := by
      cases hb : reachesFuel m (m.length + 1) A B with
      | true => exact absurd (reachesFuel_sound m (m.length + 1) A B hb) h
      | false => rfl
    refine ⟨by simp [res_SetSource, hf], ?_⟩
    intro hs
    simp [res_SetSource, hf, list_set_same m B A hs]

theorem set_source_cycle_rejection_witness :
    Reaches [some 1, some 2, none] 0 2 ∧
    res_SetSource [some 1, some 2, none] 2 (some 0) =
      (.duplicate, [some 1, some 2, none]) := by
  have h : Reaches [some 1, some 2, none] 0 2 :=
    .step 0 1 2 rfl (.step 1 2 2 rfl (.refl 2))
  exact ⟨h, (set_source_cycle_rejection [some 1, some 2, none] 0 2).1 h⟩

theorem coercion_ok_shape (ext : Ext) (allocOk : Bool) (toT fromT : IoDataType)
    (s : DataSample) (hw : wellTyped fromT s = true)
    (hok : (ioPoint_DoTypeCoercion ext allocOk toT fromT s).1 = .ok) :
    wellTyped toT (ioPoint_DoTypeCoercion ext allocOk toT fromT s).2.2 = true ∧
      (ioPoint_DoTypeCoercion ext allocOk toT fromT s).2.2.timestamp = s.timestamp := by
  cases toT <;> cases fromT <;>
    cases allocOk <;>
      simp_all [ioPoint_DoTypeCoercion, dataSample_CreateTrigger, dataSample_CreateBoolean,
        dataSample_CreateNumeric, dataSample_CreateString, dataSample_CreateJson,
        dataSample_GetTimestamp, wellTyped]

/-- Claim C1: for every push into an Input or Output resource, over all 25
(source type, declared type) pairs, if the push is accepted then the current
value stored on the resource has the resource's declared data type and its
timestamp equals the timestamp of the pushed sample. -/
theorem pushed_current_value_has_declared_type_and_timestamp
    (ext : Ext) (allocOk : Bool) (r : IoRes) (t : IoDataType) (s : DataSample)
    (hw : wellTyped t s = true)
    (hok : (res_PushIo ext allocOk r t s).1 = .ok) :
    ∃ s', (res_PushIo ext allocOk r t s).2.currentValue = some s' ∧
      wellTyped r.dataType s' = true ∧ s'.timestamp = s.timestamp := by
  unfold res_PushIo at hok ⊢
  rcases hcoerce : ioPoint_DoTypeCoercion ext allocOk r.dataType t s with ⟨res, t2, s2⟩
  have hshape := coercion_ok_shape ext allocOk r.dataType t s hw
  rw [hcoerce] at hshape
  cases res with
  | ok =>
      refine ⟨s2, ?_, ?_, ?_⟩
      · simp [hcoerce]
      · exact (hshape rfl).1
      · exact (hshape rfl).2
  | noMemory => simp [hcoerce] at hok
  | notFound => simp [hcoerce] at hok
  | unavailable => simp [hcoerce] at hok
  | duplicate => simp [hcoerce] at hok
  | badParameter => simp [hcoerce] at hok
  | overflow => simp [hcoerce] at hok
  | inProgress => simp [hcoerce] at hok
  | notPermitted => simp [hcoerce] at hok
  | formatError => simp [hcoerce] at hok
  | fault => simp [hcoerce] at hok

theorem pushed_current_value_witness :
    wellTyped .numeric ⟨.fin 5, .numeric (.fin 3)⟩ = true ∧
    (res_PushIo extProbe true ⟨.boolean, none⟩ .numeric ⟨.fin 5, .numeric (.fin 3)⟩).1 =
      .ok ∧
    ∃ s', (res_PushIo extProbe true ⟨.boolean, none⟩ .numeric
        ⟨.fin 5, .numeric (.fin 3)⟩).2.currentValue = some s' ∧
      wellTyped IoDataType.boolean s' = true ∧ s'.timestamp = CDouble.fin 5 :=
  ⟨by decide, by decide,
    pushed_current_value_has_declared_type_and_timestamp extProbe true ⟨.boolean, none⟩
      .numeric ⟨.fin 5, .numeric (.fin 3)⟩ (by decide) (by decide)⟩

/-- Claim C3: a push handler successfully registered through the
`io_Add*PushHandler` facade on a resource that already has current value `v`
is invoked exactly once — by the `handler_Call` performed inside
`AddPushHandler` before the registration call returns — with `v` (that is,
with `v`'s timestamp and value); a resource with no current value triggers no
handler invocation at registration time. -/
theorem add_push_handler_replays_current_value (pushLimit : Option Nat)
    (pushCount : Nat) (entry : TreeEntry) (addOk : Bool) (dataType : IoDataType)
    (v : DataSample)
    (hreg : (AddPushHandler pushLimit pushCount true (some entry) addOk
      dataType).1.isSome = true) :
    (resTree_GetCurrentValue entry = some v →
      (AddPushHandler pushLimit pushCount true (some entry) addOk dataType).2.2 =
        [TreeEvent.handlerCall (resTree_GetDataType entry) v]) ∧
    (resTree_GetCurrentValue entry = none →
      (AddPushHandler pushLimit pushCount true (some entry) addOk dataType).2.2 = []) := by
  cases hlim : (match pushLimit with
      | some l => decide (l ≤ pushCount)
      | none => false) with
  | true => simp [AddPushHandler, hlim] at hreg
  | false =>
    by_cases htype : entry.entryType ≠ .input ∧ entry.entryType ≠ .output
    · simp [AddPushHandler, hlim, htype] at hreg
    · cases haok : addOk with
      | false => simp [AddPushHandler, hlim, htype, haok] at hreg
      | true =>
        refine ⟨fun hcv => ?_, fun hcv => ?_⟩ <;>
          simp [AddPushHandler, hlim, htype, hcv]

theorem add_push_handler_replays_current_value_witness :
    (AddPushHandler none 0 true (some probeEntry) true .boolean).1.isSome = true ∧
    resTree_GetCurrentValue probeEntry = some ⟨.fin 2, .boolean true⟩ ∧
    (AddPushHandler none 0 true (some probeEntry) true .boolean).2.2 =
      [TreeEvent.handlerCall (resTree_GetDataType probeEntry) ⟨.fin 2, .boolean true⟩] :=
  ⟨by decide, by decide,
    (add_push_handler_replays_current_value none 0 probeEntry true .boolean
      ⟨.fin 2, .boolean true⟩ (by decide)).1 (by decide)⟩

/-- Claim C4: creating an Input at a path where an Input with the same data
type and units exists is an idempotent success that changes nothing; where an
Input with a different type or units, or an Output or an Observation exists,
the call returns Duplicate and leaves the existing resource unchanged; and
symmetrically for `io_CreateOutput`. -/
theorem create_io_conflict_rules (createOk : Bool) (e : TreeEntry) (nm : List Char)
    (dataType : IoDataType) (units : List Char) :
    (e.entryType = .input → resTree_GetDataType e = dataType →
      resTree_GetUnits e = units →
      io_CreateInput createOk (some e) nm dataType units = (.ok, some e)) ∧
    (e.entryType = .input →
      (resTree_GetDataType e ≠ dataType ∨ resTree_GetUnits e ≠ units) →
      io_CreateInput createOk (some e) nm dataType units = (.duplicate, some e)) ∧
    (e.entryType = .output ∨ e.entryType = .observation →
      io_CreateInput createOk (some e) nm dataType units = (.duplicate, some e)) ∧
    (e.entryType = .output → resTree_GetDataType e = dataType →
      resTree_GetUnits e = units →
      io_CreateOutput createOk (some e) nm dataType units = (.ok, some e)) ∧
    (e.entryType = .output →
      (resTree_GetDataType e ≠ dataType ∨ resTree_GetUnits e ≠ units) →
      io_CreateOutput createOk (some e) nm dataType units = (.duplicate, some e)) ∧
    (e.entryType = .input ∨ e.entryType = .observation →
      io_CreateOutput createOk (some e) nm dataType units = (.duplicate, some e)) := by
  refine ⟨?_, ?_, ?_, ?_, ?_, ?_⟩
  · intro ht h1 h2
    simp [io_CreateInput, ht, h1, h2]
  · intro ht h
    rcases h with h | h <;> simp [io_CreateInput, ht, h, Ne.symm]
  · intro h
    rcases h with h | h <;> simp [io_CreateInput, h]
  · intro ht h1 h2
    simp [io_CreateOutput, ht, h1, h2]
  · intro ht h
    rcases h with h | h <;> simp [io_CreateOutput, ht, h, Ne.symm]
  · intro h
    rcases h with h | h <;> simp [io_CreateOutput, h]

theorem create_io_conflict_rules_witness :
    probeEntry.entryType = .input ∧
    resTree_GetDataType probeEntry = .boolean ∧
    resTree_GetUnits probeEntry = [] ∧
    io_CreateInput true (some probeEntry) [] .boolean [] = (.ok, some probeEntry) :=
  ⟨by decide, by decide, by decide,
    (create_io_conflict_rules true probeEntry [] .boolean []).1 (by decide) (by decide)
      (by decide)⟩

/-- Claim C5: deleting an Input or Output entry notifies the resource-removal
handlers, and then either converts the entry into a Placeholder when the
resource still carries administrative settings, or strips the resource body,
converts the entry into a Namespace with cleared flags, records the deletion
for the snapshot mechanism (the tombstone record) and releases the entry. -/
theorem delete_io_placeholder_or_tombstone (e : TreeEntry) (io : ResBody)
    (hbody : e.body = .resource io) :
    (res_HasAdminSettings io = true →
      resTree_DeleteIo e =
        ({ e with entryType := .placeholder,
                  body := .resource (res_CreatePlaceholder io) },
         [.removalHandlers e.entryType])) ∧
    (res_HasAdminSettings io = false →
      resTree_DeleteIo e =
        ({ e with entryType := .nspace, body := .nsFlags Flags.clear },
         [.removalHandlers e.entryType, .recordDeletion, .releaseEntry])) := by
  unfold resTree_DeleteIo
  rw [hbody]
  exact ⟨fun h => by simp [h], fun h => by simp [h]⟩

theorem delete_io_placeholder_or_tombstone_witness :
    probeEntry.body = .resource probeRes ∧
    res_HasAdminSettings probeRes = false ∧
    resTree_DeleteIo probeEntry =
      ({ probeEntry with entryType := .nspace, body := .nsFlags Flags.clear },
       [.removalHandlers probeEntry.entryType, .recordDeletion, .releaseEntry]) :=
  ⟨rfl, by decide,
    (delete_io_placeholder_or_tombstone probeEntry probeRes rfl).2 (by decide)⟩

theorem take_set_of_le {α : Type} :
    ∀ (l : List α) (i : Nat) (c : α) (n : Nat), n ≤ i →
      (l.set i c).take n = l.take n := by
  intro l
  induction l with
  | nil => intro i c n h; simp
  | cons x xs ih =>
    intro i c n h
    cases i with
    | zero =>
      have : n = 0 := by omega
      simp [this]
    | succ i =>
      cases n with
      | zero => simp
      | succ n => simp [List.set, ih i c n (by omega)]

/-- Claim C6 (amended): a string sample accepted by a JSON-typed Input or
Output becomes a JSON current value with the same timestamp; its text is the
source string wrapped in double quotes whenever the quoted form fits the
1024-byte conversion buffer (string length at most 1021); for longer strings
(1022 or 1023 bytes) the snprintf output overflows and the overflow handler —
which, due to the `sizeof(newValue - 2)` slip, indexes the buffer at
`sizeof(char*)` — terminates the stored text at byte 8, leaving only the
opening quote and the first 7 bytes of the string. -/
theorem string_to_json_quoting (ext : Ext) (allocOk : Bool) (cur : Option DataSample)
    (ts : CDouble) (s : List Char)
    (hok : (res_PushIo ext allocOk ⟨.json, cur⟩ .str ⟨ts, .str s⟩).1 = .ok) :
    (res_PushIo ext allocOk ⟨.json, cur⟩ .str ⟨ts, .str s⟩).2.currentValue =
      some ⟨ts, .json (if s.length ≤ 1021 then '"' :: (s ++ ['"'])
                       else '"' :: s.take 7)⟩ := by
  cases allocOk with
  | false =>
    simp [res_PushIo, ioPoint_DoTypeCoercion, dataSample_CreateJson] at hok
  | true =>
    by_cases hlen : s.length ≤ 1021
    · have hfit : ¬ (HUB_MAX_STRING_BYTES ≤ s.length + 1 + 1) := by
        simp only [HUB_MAX_STRING_BYTES]
        omega
      simp [res_PushIo, ioPoint_DoTypeCoercion, dataSample_CreateJson,
        dataSample_GetString, dataSample_GetTimestamp, hfit, hlen]
    · have hover : HUB_MAX_STRING_BYTES ≤ s.length + 1 + 1 := by
        simp only [HUB_MAX_STRING_BYTES]
        omega
      have h7 : ((('"' :: (s ++ ['"'])).take (HUB_MAX_STRING_BYTES - 1)).set
            sizeofCharPtr '"').take sizeofCharPtr = '"' :: s.take 7 := by
        rw [take_set_of_le _ _ _ _ (le_refl sizeofCharPtr), List.take_take]
        have hmin : min sizeofCharPtr (HUB_MAX_STRING_BYTES - 1) = 8 := by
          simp [sizeofCharPtr, HUB_MAX_STRING_BYTES]
        rw [hmin]
        have h8 : (8 : Nat) = 7 + 1 := rfl
        rw [h8, List.take_succ_cons]
        rw [List.take_append_of_le_length (by omega)]
      simp [res_PushIo, ioPoint_DoTypeCoercion, dataSample_CreateJson,
        dataSample_GetString, dataSample_GetTimestamp, hover, hlen, h7]

set_option maxRecDepth 20000 in
/-- Claim C6 counterexample: a 1022-byte string pushed into a JSON-typed
resource is accepted, yet the stored JSON text is the 8-byte truncation, not
the source string wrapped in double quotes. -/
theorem string_to_json_quoting_counterexample :
    (res_PushIo extProbe true ⟨.json, none⟩ .str
        ⟨.fin 1, .str (List.replicate 1022 'a')⟩).1 = .ok ∧
    (res_PushIo extProbe true ⟨.json, none⟩ .str
        ⟨.fin 1, .str (List.replicate 1022 'a')⟩).2.currentValue =
      some ⟨.fin 1, .json ('"' :: List.replicate 7 'a')⟩ ∧
    ('"' :: List.replicate 7 'a' : List Char) ≠
      '"' :: (List.replicate 1022 'a' ++ ['"']) :=
  ⟨by decide, by decide, by decide⟩

theorem string_to_json_quoting_witness :
    (res_PushIo extProbe true ⟨.json, none⟩ .str ⟨.fin 3, .str ['a', 'b']⟩).1 = .ok ∧
    (res_PushIo extProbe true ⟨.json, none⟩ .str ⟨.fin 3, .str ['a', 'b']⟩).2.currentValue
      = some ⟨.fin 3, .json ['"', 'a', 'b', '"']⟩ := by
  refine ⟨by decide, ?_⟩
  have h := string_to_json_quoting extProbe true none (.fin 3) ['a', 'b'] (by decide)
  simpa using h

/-- Claim C7: an entry observed as deleted is a Namespace entry with no
resource body; the lookup and enumeration operations that exclude zombies
(`resTree_FindChild`, `resTree_GetFirstChild`, `resTree_GetNextSibling`)
never return a deleted entry; the withZombies variants can. -/
theorem tombstones_are_namespaces_and_hidden (e c1 c2 c3 : TreeEntry)
    (children sibs : List TreeEntry) (nm : List Char) :
    (resTree_IsDeleted e = true → e.entryType = .nspace ∧ entryRes e = none) ∧
    (resTree_FindChild children nm = some c1 → resTree_IsDeleted c1 = false) ∧
    (resTree_GetFirstChild children = some c2 → resTree_IsDeleted c2 = false) ∧
    (resTree_GetNextSibling sibs = some c3 → resTree_IsDeleted c3 = false) ∧
    (∃ (zchildren : List TreeEntry) (zname : List Char) (zc : TreeEntry),
      resTree_FindChildEx zchildren zname true = some zc ∧
      resTree_IsDeleted zc = true) := by
  refine ⟨?_, ?_, ?_, ?_, ?_⟩
  · intro h
    cases he : e.entryType <;> rw [resTree_IsDeleted, he] at h
    case nspace =>
      cases hb : e.body <;> rw [hb] at h
      · exact ⟨by simp [he], by simp [entryRes, hb]⟩
      · cases h
    all_goals cases h
  · rw [resTree_FindChild]
    induction children with
    | nil => intro h; cases h
    | cons c rest ih =>
      intro h
      rw [resTree_FindChildEx] at h
      split at h
      · rename_i hcond
        cases hdel : resTree_IsDeleted c with
        | false =>
          cases h
          exact hdel
        | true => simp [hdel] at hcond
      · exact ih h
  · rw [resTree_GetFirstChild]
    cases children with
    | nil => intro h; cases h
    | cons c rest =>
      intro h
      rw [resTree_GetFirstChildEx] at h
      split at h
      · rename_i hcond
        cases hdel : resTree_IsDeleted c with
        | false => cases h; exact hdel
        | true => simp [hdel] at hcond
      · cases h
  · rw [resTree_GetNextSibling]
    cases sibs with
    | nil => intro h; cases h
    | cons c rest =>
      intro h
      rw [resTree_GetNextSiblingEx] at h
      split at h
      · rename_i hcond
        cases hdel : resTree_IsDeleted c with
        | false => cases h; exact hdel
        | true => simp [hdel] at hcond
      · cases h
  · exact ⟨[probeDeadEntry], [], probeDeadEntry, by decide, by decide⟩

theorem tombstones_are_namespaces_and_hidden_witness :
    resTree_IsDeleted probeDeadEntry = true ∧
    probeDeadEntry.entryType = .nspace ∧ entryRes probeDeadEntry = none :=
  ⟨by decide,
    (tombstones_are_namespaces_and_hidden probeDeadEntry probeEntry probeEntry
      probeEntry [] [] []).1 (by decide)⟩

/-- Claim C8 (amended): a typed current-value getter (`io_GetBoolean`,
`io_GetNumeric`, `io_GetString`) called on an existing Input or Output whose
declared data type differs from the getter's type fails with the Unavailable
error code — the same code used when no current value exists, since the typed
fetch returns no sample on a type mismatch — and the timestamp and value
out-parameters are not written. -/
theorem typed_getter_type_mismatch (entry : TreeEntry) (r : ResBody) (size : Nat)
    (hio : entry.entryType = .input ∨ entry.entryType = .output)
    (hbody : entry.body = .resource r) :
    (r.dataType ≠ .boolean → io_GetBoolean (some entry) = (.unavailable, none, none)) ∧
    (r.dataType ≠ .numeric → io_GetNumeric (some entry) = (.unavailable, none, none)) ∧
    (r.dataType ≠ .str →
      io_GetString (some entry) size = (.unavailable, none, none)) := by
  have hf : FindResource (some entry) = some entry := by
    rcases hio with h | h <;> simp [FindResource, h]
  have hdt : resTree_GetDataType entry = r.dataType := by
    simp [resTree_GetDataType, entryRes, hbody]
  refine ⟨fun hne => ?_, fun hne => ?_, fun hne => ?_⟩ <;>
    simp [io_GetBoolean, io_GetNumeric, io_GetString, hf, GetCurrentValue, hdt, hne]

/-- Claim C8 counterexample: `io_GetBoolean` on a Numeric-typed Input that
does have a current value returns Unavailable, not FormatError. -/
theorem typed_getter_type_mismatch_counterexample :
    resTree_GetCurrentValue probeNumEntry = some ⟨.fin 1, .numeric (.fin 2)⟩ ∧
    io_GetBoolean (some probeNumEntry) = (.unavailable, none, none) ∧
    LeResult.unavailable ≠ LeResult.formatError :=
  ⟨by decide, by decide, by decide⟩

theorem typed_getter_type_mismatch_witness :
    (probeNumEntry.entryType = .input ∨ probeNumEntry.entryType = .output) ∧
    probeNumEntry.body = .resource probeNumRes ∧
    probeNumRes.dataType ≠ .boolean ∧
    io_GetBoolean (some probeNumEntry) = (.unavailable, none, none) :=
  ⟨Or.inl rfl, rfl, by decide,
    (typed_getter_type_mismatch probeNumEntry probeNumRes 0 (Or.inl rfl) rfl).1
      (by decide)⟩

/-- Claim C9: every I/O-service operation that looks a resource up by path —
the pushes of all five types, the typed getters, get-timestamp, delete,
mark-optional and the default setters — treats an entry that is a Namespace, a
Placeholder or an Observation exactly like a non-existent path: the operation
reports not-found (or does nothing, for the void operation) and the entry is
left unchanged. -/
theorem non_io_entry_treated_as_missing (ext : Ext) (allocOk : Bool) (e : TreeEntry)
    (ts : CDouble) (b : Bool) (vn : CDouble) (vs vj : List Char) (size : Nat)
    (bdef : Bool) (ndef : CDouble) (sdef jdef : List Char)
    (h : e.entryType = .nspace ∨ e.entryType = .placeholder ∨
      e.entryType = .observation) :
    io_PushTrigger ext allocOk (some e) ts = (.notFound, some e) ∧
    io_PushBoolean ext allocOk (some e) ts b = (.notFound, some e) ∧
    io_PushNumeric ext allocOk (some e) ts vn = (.notFound, some e) ∧
    io_PushString ext allocOk (some e) ts vs = (.notFound, some e) ∧
    io_PushJson ext allocOk (some e) ts vj = (.notFound, some e) ∧
    io_GetTimestamp (some e) = (.notFound, none) ∧
    io_GetBoolean (some e) = (.notFound, none, none) ∧
    io_GetNumeric (some e) = (.notFound, none, none) ∧
    io_GetString (some e) size = (.notFound, none, none) ∧
    io_DeleteResource (some e) = (.notFound, some e, []) ∧
    io_MarkOptional (some e) = some e ∧
    io_SetBooleanDefault allocOk (some e) bdef = (.notFound, some e) ∧
    io_SetNumericDefault allocOk (some e) ndef = (.notFound, some e) ∧
    io_SetStringDefault allocOk (some e) sdef = (.notFound, some e) ∧
    io_SetJsonDefault ext allocOk (some e) jdef = (.notFound, some e) := by
  have hf : FindResource (some e) = none := by
    rcases h with h | h | h <;> simp [FindResource, h]
  refine ⟨?_, ?_, ?_, ?_, ?_, ?_, ?_, ?_, ?_, ?_, ?_, ?_, ?_, ?_, ?_⟩ <;>
    simp [io_PushTrigger, io_PushBoolean, io_PushNumeric, io_PushString, io_PushJson,
      io_GetTimestamp, io_GetBoolean, io_GetNumeric, io_GetString, io_DeleteResource,
      io_MarkOptional, io_SetBooleanDefault, io_SetNumericDefault, io_SetStringDefault,
      io_SetJsonDefault, hf]

theorem non_io_entry_treated_as_missing_witness :
    (probeObsEntry.entryType = .nspace ∨ probeObsEntry.entryType = .placeholder ∨
      probeObsEntry.entryType = .observation) ∧
    io_DeleteResource (some probeObsEntry) = (.notFound, some probeObsEntry, []) ∧
    io_GetTimestamp (some probeObsEntry) = (.notFound, none) :=
  ⟨Or.inr (Or.inr rfl),
    (non_io_entry_treated_as_missing extProbe true probeObsEntry (.fin 0) false
      (.fin 0) [] [] 0 false (.fin 0) [] [] (Or.inr (Or.inr rfl))).2.2.2.2.2.2.2.2.2.1,
    (non_io_entry_treated_as_missing extProbe true probeObsEntry (.fin 0) false
      (.fin 0) [] [] 0 false (.fin 0) [] [] (Or.inr (Or.inr rfl))).2.2.2.2.2.1⟩

/-- Claim C10 (amended): a typed default setter whose type matches the
resource's declared type returns Duplicate and leaves the existing default
value unchanged when the resource already has one; a setter whose type differs
from the declared type fails with BadParameter — even when a default exists —
and changes nothing; a default is installed exactly when the resource has none
and the setter's type matches the declared type (with, for JSON, a valid JSON
text). -/
theorem set_default_rules (ext : Ext) (allocOk : Bool) (e : TreeEntry) (r : ResBody)
    (b : Bool) (vn : CDouble) (vs vj : List Char)
    (hio : e.entryType = .input ∨ e.entryType = .output)
    (hbody : e.body = .resource r) :
    (r.defaultValue.isSome = true → r.dataType = .boolean →
      io_SetBooleanDefault allocOk (some e) b = (.duplicate, some e)) ∧
    (r.defaultValue.isSome = true → r.dataType = .numeric →
      io_SetNumericDefault allocOk (some e) vn = (.duplicate, some e)) ∧
    (r.defaultValue.isSome = true → r.dataType = .str →
      io_SetStringDefault allocOk (some e) vs = (.duplicate, some e)) ∧
    (r.defaultValue.isSome = true → r.dataType = .json →
      io_SetJsonDefault ext allocOk (some e) vj = (.duplicate, some e)) ∧
    (r.dataType ≠ .boolean →
      io_SetBooleanDefault allocOk (some e) b = (.badParameter, some e)) ∧
    (r.dataType ≠ .numeric →
      io_SetNumericDefault allocOk (some e) vn = (.badParameter, some e)) ∧
    (r.dataType ≠ .str →
      io_SetStringDefault allocOk (some e) vs = (.badParameter, some e)) ∧
    (r.dataType ≠ .json →
      io_SetJsonDefault ext allocOk (some e) vj = (.badParameter, some e)) ∧
    (r.defaultValue = none → r.dataType = .boolean →
      io_SetBooleanDefault true (some e) b =
        (.ok, some { e with
          body := .resource { r with defaultValue := some ⟨.fin 0, .boolean b⟩ } })) ∧
    (r.defaultValue = none → r.dataType = .numeric →
      io_SetNumericDefault true (some e) vn =
        (.ok, some { e with
          body := .resource { r with defaultValue := some ⟨.fin 0, .numeric vn⟩ } })) ∧
    (r.defaultValue = none → r.dataType = .str →
      io_SetStringDefault true (some e) vs =
        (.ok, some { e with
          body := .resource { r with defaultValue := some ⟨.fin 0, .str vs⟩ } })) ∧
    (r.defaultValue = none → r.dataType = .json → ext.jsonValid vj = true →
      io_SetJsonDefault ext true (some e) vj =
        (.ok, some { e with
          body := .resource { r with defaultValue := some ⟨.fin 0, .json vj⟩ } })) := by
  have hf : FindResource (some e) = some e := by
    rcases hio with h | h <;> simp [FindResource, h]
  have hdt : resTree_GetDataType e = r.dataType := by
    simp [resTree_GetDataType, entryRes, hbody]
  have hhd : resTree_HasDefault e = r.defaultValue.isSome := by
    simp [resTree_HasDefault, entryRes, hbody]
  refine ⟨fun hd ht => ?_, fun hd ht => ?_, fun hd ht => ?_, fun hd ht => ?_,
    fun ht => ?_, fun ht => ?_, fun ht => ?_, fun ht => ?_,
    fun hd ht => ?_, fun hd ht => ?_, fun hd ht => ?_, fun hd ht hv => ?_⟩ <;>
    simp [io_SetBooleanDefault, io_SetNumericDefault, io_SetStringDefault,
      io_SetJsonDefault, hf, hdt, hhd, resTree_SetDefault, hbody,
      dataSample_CreateBoolean, dataSample_CreateNumeric, dataSample_CreateString,
      dataSample_CreateJson, *]

/-- Claim C10 counterexample: `io_SetBooleanDefault` on a Numeric-typed Input
that already has a default value returns BadParameter — the type check comes
first — not Duplicate. -/
theorem set_default_rules_counterexample :
    resTree_HasDefault probeNumDefEntry = true ∧
    io_SetBooleanDefault true (some probeNumDefEntry) true =
      (.badParameter, some probeNumDefEntry) ∧
    LeResult.badParameter ≠ LeResult.duplicate :=
  ⟨by decide, by decide, by decide⟩

theorem set_default_rules_witness :
    probeNumDefRes.defaultValue.isSome = true ∧
    probeNumDefRes.dataType = .numeric ∧
    io_SetNumericDefault true (some probeNumDefEntry) (.fin 9) =
      (.duplicate, some probeNumDefEntry) :=
  ⟨by decide, by decide,
    (set_default_rules extProbe true probeNumDefEntry probeNumDefRes false (.fin 9)
      [] [] (Or.inl rfl) rfl).2.1 (by decide) (by decide)⟩

end DataHub
